import Mathlib

/-
Verification of a cycle-accurate RISC-V RV32I subset simulator
(single-cycle and 5-stage pipelined datapath) against its design
specification.

The simulator operates on 32-character bit strings (one per instruction);
we embed a bit string as a `List Bool`, most significant bit first, so
the Python slice `s[a:b]` becomes `sliceBits l a b` and `int(s, 2)`
becomes `bitsToNat l`.  Machine integers in the source are unbounded
Python ints, embedded as `Int`; Python floor division `//` is `Int.fdiv`
and Python `%` on ints with positive modulus is `Int.emod`.  The mutable
module-level globals (pc, next_pc, branch_target, total_clock_cycles,
alu_zero, current_instr_pc, rf, d_mem) are gathered into the `Machine`
record that every stage function threads explicitly.  Console error
reports (print statements on error paths) are embedded as Boolean flags
in the return values of the functions that emit them.  Code paths that
would raise a Python exception (IndexError on fetch, failed table lookup
in the decoder, stage payload missing from an occupied pipeline latch)
are embedded as `Option.none`.
-/

namespace RV

/-- Instruction format classes recognized by the decoder. -/
inductive InstrType where
  | R | I | S | SB | UJ
deriving DecidableEq

/-- Value of one character of a bit string: true embeds the character 1. -/
def bitVal (b : Bool) : Nat := if b then 1 else 0

/-- Embedding of Python int(s, 2): most-significant-first binary value. -/
def bitsToNat (l : List Bool) : Nat :=
  l.foldl (fun acc b => 2 * acc + bitVal b) 0

/-- Embedding of the Python string slice s[a:b] on a bit string. -/
def sliceBits (l : List Bool) (a b : Nat) : List Bool :=
  (l.drop a).take (b - a)

/-- Most-significant-first w-bit binary rendering of a natural number,
used to build concrete instruction words and the two's-complement
encoder of the sign-extension round-trip property. -/
def natToBits : Nat → Nat → List Bool
  | 0, _ => []
  | w + 1, n => decide (n / 2 ^ w % 2 = 1) :: natToBits w n

/-- A concrete 32-bit instruction word written as a number, bit 31 first,
matching the 32-character bit strings the simulator reads. -/
def w32 (n : Nat) : List Bool := natToBits 32 n

/-- Embedding of Decode.sign_extend: interpret the bit string as
unsigned and subtract 2 ^ num_bits when its first character is 1. -/
def sign_extend (binary_string : List Bool) (num_bits : Nat) : Int :=
  let x : Int := bitsToNat binary_string
  if binary_string.headI = true then x - 2 ^ num_bits else x

/-- Embedding of Decode.determineInstructionType: the opcode is the low
7 bits, machineCode[25:]; unlisted opcodes raise KeyError, embedded as
none. -/
def determineInstructionType (machineCode : List Bool) : Option InstrType :=
  match machineCode.drop 25 with
  | [false, true, true, false, false, true, true] => some .R    -- 0110011
  | [false, false, false, false, false, true, true] => some .I  -- 0000011
  | [false, false, true, false, false, true, true] => some .I   -- 0010011
  | [true, true, false, false, true, true, true] => some .I     -- 1100111
  | [false, true, false, false, false, true, true] => some .S   -- 0100011
  | [true, true, false, false, false, true, true] => some .SB   -- 1100011
  | [true, true, false, true, true, true, true] => some .UJ     -- 1101111
  | _ => none

/-- Embedding of Decode.determineMnemonic: format-specific lookup keyed
on funct3 (machineCode[17:20]) and, for R, funct7 (machineCode[:7]); the
I sub-cases re-inspect the opcode machineCode[25:].  A key missing from
a table raises KeyError, embedded as none. -/
def determineMnemonic (machineCode : List Bool) (type : InstrType) :
    Option String :=
  match type with
  | .R =>
    match sliceBits machineCode 17 20, machineCode.take 7 with
    | [false, false, false], [false, false, false, false, false, false, false] => some "add"
    | [false, false, false], [false, true, false, false, false, false, false] => some "sub"
    | [false, false, true], [false, false, false, false, false, false, false] => some "sll"
    | [false, true, false], [false, false, false, false, false, false, false] => some "slt"
    | [false, true, true], [false, false, false, false, false, false, false] => some "sltu"
    | [true, false, false], [false, false, false, false, false, false, false] => some "xor"
    | [true, false, true], [false, false, false, false, false, false, false] => some "srl"
    | [true, false, true], [false, true, false, false, false, false, false] => some "sra"
    | [true, true, false], [false, false, false, false, false, false, false] => some "or"
    | [true, true, true], [false, false, false, false, false, false, false] => some "and"
    | _, _ => none
  | .I =>
    match machineCode.drop 25 with
    | [false, false, false, false, false, true, true] =>   -- 0000011
      match sliceBits machineCode 17 20 with
      | [false, false, false] => some "lb"
      | [false, false, true] => some "lh"
      | [false, true, false] => some "lw"
      | _ => none
    | [false, false, true, false, false, true, true] =>    -- 0010011
      match sliceBits machineCode 17 20 with
      | [false, false, false] => some "addi"
      | [false, false, true] => some "slli"
      | [false, true, false] => some "slti"
      | [false, true, true] => some "sltiu"
      | [true, false, false] => some "xori"
      | [true, true, false] => some "ori"
      | [true, true, true] => some "andi"
      | _ => none
    | [true, true, false, false, true, true, true] => some "jalr"  -- 1100111
    | _ => none
  | .S =>
    match sliceBits machineCode 17 20 with
    | [false, false, false] => some "sb"
    | [false, false, true] => some "sh"
    | [false, true, false] => some "sw"
    | [false, true, true] => some "sd"
    | _ => none
  | .SB =>
    match sliceBits machineCode 17 20 with
    | [false, false, false] => some "beq"
    | [false, false, true] => some "bne"
    | [true, false, false] => some "blt"
    | [true, false, true] => some "bge"
    | _ => none
  | .UJ => some "jal"

/-- Embedding of the decoded-instruction dictionary.  A key absent from
the dictionary is none; the R-format entry decoded[imm] = None is also
embedded as none (the source stores the key with value None). -/
structure Decoded where
  type : InstrType
  mnemonic : String
  rs1 : Option Nat := none
  rs2 : Option Nat := none
  rd : Option Nat := none
  imm : Option Int := none
deriving DecidableEq

/-- Embedding of Decode: determine format and mnemonic (a failed lookup
raises, embedded as none), then extract the format's fields from fixed
bit positions and sign-extend the immediate. -/
def Decode (machineCode : List Bool) : Option Decoded := do
  let type ← determineInstructionType machineCode
  let mnemonic ← determineMnemonic machineCode type
  let rs1v := some (bitsToNat (sliceBits machineCode 12 17))
  let rs2v := some (bitsToNat (sliceBits machineCode 7 12))
  let rdv := some (bitsToNat (sliceBits machineCode 20 25))
  match type with
  | .R => some { type := type, mnemonic := mnemonic, rs1 := rs1v, rs2 := rs2v, rd := rdv, imm := none }
  | .I => some { type := type, mnemonic := mnemonic, rs1 := rs1v, rd := rdv, imm := some (sign_extend (machineCode.take 12) 12) }
  | .S => some { type := type, mnemonic := mnemonic, rs1 := rs1v, rs2 := rs2v, imm := some (sign_extend (machineCode.take 7 ++ sliceBits machineCode 20 25) 12) }
  | .SB =>
    let imm_binary := [machineCode.getD 0 false, machineCode.getD 24 false] ++ sliceBits machineCode 1 7 ++ sliceBits machineCode 20 24 ++ [false]
    some { type := type, mnemonic := mnemonic, rs1 := rs1v, rs2 := rs2v, imm := some (sign_extend imm_binary 13) }
  | .UJ =>
    let imm_binary := [machineCode.getD 0 false] ++ sliceBits machineCode 12 20 ++ [machineCode.getD 11 false] ++ sliceBits machineCode 1 11 ++ [false]
    some { type := type, mnemonic := mnemonic, rd := rdv, imm := some (sign_extend imm_binary 21) }

/-- Embedding of the control-signal dictionary.  Integer-valued signals
keep their Python 0/1 values; ALUControl is the optional key set only
for supported mnemonics; err embeds the console report printed by the
unsupported-instruction branch. -/
structure Signals where
  RegWrite : Nat := 0
  MemRead : Nat := 0
  MemWrite : Nat := 0
  ALUSrc : Nat := 0
  Branch : Nat := 0
  MemToReg : Nat := 0
  ALUControl : Option String := none
  err : Bool := false
deriving DecidableEq

/-- The module-level mutable globals of the simulator, threaded
explicitly through every stage function. -/
structure Machine where
  pc : Int := 0
  next_pc : Int := 0
  branch_target : Int := 0
  total_clock_cycles : Nat := 0
  alu_zero : Bool := false
  current_instr_pc : Int := 0
  rf : Nat → Int := fun _ => 0
  d_mem : Nat → Int := fun _ => 0

/-- Size of the data memory, len(d_mem) for d_mem = [0] * 32. -/
def dMemLen : Nat := 32

/-- Functional update of a register-file or data-memory array cell. -/
def setCell (f : Nat → Int) (i : Nat) (v : Int) : Nat → Int :=
  fun j => if j = i then v else f j

/-- Embedding of Python list indexing program[i], including the
negative-index wrap-around; an IndexError is embedded as none. -/
def pyGet {α : Type} (l : List α) (i : Int) : Option α :=
  if 0 ≤ i then l[i.toNat]?
  else if -(l.length : Int) ≤ i then l[((l.length : Int) + i).toNat]?
  else none

/-- Embedding of Fetch: record current_instr_pc, compute next_pc,
read program[pc // 4] (an IndexError is none) and advance pc. -/
def Fetch (program : List (List Bool)) (st : Machine) :
    Option (List Bool × Machine) :=
  let st1 := { st with current_instr_pc := st.pc, next_pc := st.pc + 4 }
  match pyGet program (st.pc.fdiv 4) with
  | none => none
  | some instruction => some (instruction, { st1 with pc := st1.next_pc })

/-- Embedding of ALU: result of the requested operation, plus a flag
embedding the console report of the unsupported-operation branch (in
which case the initial result value 0 is returned unchanged).  The
write of the global alu_zero in the sub branch (1 iff result == 0) is
subsumed by the ALU's only caller, Execute, which immediately
overwrites alu_zero with the same predicate of the returned result. -/
def ALU (op : String) (operand1 operand2 : Int) : Int × Bool :=
  if op = "add" then (operand1 + operand2, false)
  else if op = "sub" then (operand1 - operand2, false)
  else if op = "and" then (Int.land operand1 operand2, false)
  else if op = "or" then (Int.lor operand1 operand2, false)
  else (0, true)

/-- Embedding of ControlUnit: the if/elif chain on the mnemonic; the
final else prints a report (err flag) and leaves every signal at its
default value, ALUControl unset. -/
def ControlUnit (decoded : Decoded) : Signals :=
  let mnemonic := decoded.mnemonic
  if mnemonic = "lw" then
    { RegWrite := 1, MemRead := 1, ALUSrc := 1, MemToReg := 1, ALUControl := some "add" }
  else if mnemonic = "sw" then
    { MemWrite := 1, ALUSrc := 1, ALUControl := some "add" }
  else if mnemonic = "add" ∨ mnemonic = "sub" ∨ mnemonic = "and" ∨ mnemonic = "or" then
    { RegWrite := 1, ALUSrc := 0, ALUControl := some mnemonic }
  else if mnemonic = "addi" ∨ mnemonic = "andi" ∨ mnemonic = "ori" then
    let ctl := if mnemonic = "addi" then some "add" else if mnemonic = "andi" then some "and" else if mnemonic = "ori" then some "or" else none
    { RegWrite := 1, ALUSrc := 1, ALUControl := ctl }
  else if mnemonic = "beq" then
    { Branch := 1, ALUSrc := 0, ALUControl := some "sub" }
  else if mnemonic = "jal" then
    { RegWrite := 1, MemRead := 0, MemWrite := 0, ALUSrc := 1, Branch := 1, MemToReg := 0, ALUControl := some "add" }
  else if mnemonic = "jalr" then
    { RegWrite := 1, MemRead := 0, MemWrite := 0, ALUSrc := 1, Branch := 0, MemToReg := 0, ALUControl := some "add" }
  else
    { err := true }

/-- Embedding of the operand selection at the top of Execute: operand1
is rf[rs1] when the rs1 key is present, else 0; operand2 is the
immediate when ALUSrc == 1, else rf[rs2] when the rs2 key is present,
else 0.  (When ALUSrc == 1 every reachable caller provides an integer
immediate; the R-format imm of None would make Python fail at the ALU,
embedded here through getD 0 on an unreachable path.) -/
def executeOperands (decoded : Decoded) (signals : Signals) (st : Machine) :
    Int × Int :=
  let operand1 := match decoded.rs1 with
    | some r => st.rf r
    | none => 0
  let operand2 :=
    if signals.ALUSrc = 1 then decoded.imm.getD 0
    else match decoded.rs2 with
      | some r => st.rf r
      | none => 0
  (operand1, operand2)

/-- Embedding of Execute: jal and jalr redirect pc and return None
(no ALU result); otherwise the ALU runs, alu_zero is set, and a taken
branch (Branch signal and zero flag) redirects pc to
current_instr_pc + 4 + (imm << 1).  jalr reads rf[rs1] directly (jalr
always decodes with rs1 present; getD 0 covers the unreachable miss,
where Python would raise). -/
def Execute (decoded : Decoded) (signals : Signals) (st : Machine) :
    Option Int × Machine :=
  let ops := executeOperands decoded signals st
  if decoded.mnemonic = "jal" then
    let bt := st.current_instr_pc + decoded.imm.getD 0
    (none, { st with branch_target := bt, pc := bt })
  else if decoded.mnemonic = "jalr" then
    let base := st.rf (decoded.rs1.getD 0)
    let bt := Int.land (base + decoded.imm.getD 0) (-2)
    (none, { st with branch_target := bt, pc := bt })
  else
    let alu_result := (ALU (signals.ALUControl.getD "") ops.1 ops.2).1
    let st1 := { st with alu_zero := alu_result = 0 }
    if signals.Branch ≠ 0 ∧ alu_result = 0 then
      let bt := (st.current_instr_pc + 4) + (decoded.imm.getD 0) * 2
      (some alu_result, { st1 with branch_target := bt, pc := bt })
    else
      (some alu_result, st1)

/-- Embedding of Mem: on MemRead, return d_mem[alu_result // 4] when the
index is within bounds, else report the error (flag) and return 0; on
MemWrite, store rf[rs2] at the index when in bounds, else report; the
machine is returned otherwise untouched.  alu_result is None only for
jal and jalr, whose signals clear MemRead and MemWrite. -/
def Mem (alu_result : Option Int) (decoded : Decoded) (signals : Signals)
    (st : Machine) : Option Int × Machine × Bool :=
  if signals.MemRead = 1 then
    let index := (alu_result.getD 0).fdiv 4
    if 0 ≤ index ∧ index < (dMemLen : Int) then
      (some (st.d_mem index.toNat), st, false)
    else
      (some 0, st, true)
  else if signals.MemWrite = 1 then
    let index := (alu_result.getD 0).fdiv 4
    if 0 ≤ index ∧ index < (dMemLen : Int) then
      (none, { st with d_mem := setCell st.d_mem index.toNat (st.rf (decoded.rs2.getD 0)) }, false)
    else
      (none, st, true)
  else
    (none, st, false)

/-- Embedding of Writeback (single-cycle): increment
total_clock_cycles; jal and jalr write the link value
current_instr_pc + 4 to rd unless rd is None or 0; otherwise an
enabled RegWrite stores mem_data (MemToReg) or the ALU result to rd
unless rd is None or 0, and an enabled MemWrite stores rf[rs2] at
alu_result // 4 again, with the same bounds check as Mem (silently
skipped when out of bounds). -/
def Writeback (decoded : Decoded) (signals : Signals)
    (alu_result mem_data : Option Int) (st : Machine) : Machine :=
  let st := { st with total_clock_cycles := st.total_clock_cycles + 1 }
  if decoded.mnemonic = "jal" ∨ decoded.mnemonic = "jalr" then
    match decoded.rd with
    | some rd => if rd ≠ 0 then { st with rf := setCell st.rf rd (st.current_instr_pc + 4) } else st
    | none => st
  else
    let write_val := if signals.MemToReg ≠ 0 then mem_data.getD 0 else alu_result.getD 0
    let st1 :=
      if signals.RegWrite ≠ 0 then
        match decoded.rd with
        | some rd => if rd ≠ 0 then { st with rf := setCell st.rf rd write_val } else st
        | none => st
      else st
    if signals.MemWrite ≠ 0 then
      let idx := (alu_result.getD 0).fdiv 4
      if 0 ≤ idx ∧ idx < (dMemLen : Int) then
        { st1 with d_mem := setCell st1.d_mem idx.toNat (st1.rf (decoded.rs2.getD 0)) }
      else st1
    else st1

/-- Embedding of pipeline_Writeback: like the jal/jalr and RegWrite
register write-back of Writeback, but with no cycle increment and no
memory write. -/
def pipeline_Writeback (decoded : Decoded) (signals : Signals)
    (alu_res mem_data : Option Int) (st : Machine) : Machine :=
  if decoded.mnemonic = "jal" ∨ decoded.mnemonic = "jalr" then
    match decoded.rd with
    | some rd => if rd ≠ 0 then { st with rf := setCell st.rf rd (st.current_instr_pc + 4) } else st
    | none => st
  else if signals.RegWrite = 1 then
    let write_val := if signals.MemToReg ≠ 0 then mem_data.getD 0 else alu_res.getD 0
    match decoded.rd with
    | some rd => if rd ≠ 0 then { st with rf := setCell st.rf rd write_val } else st
    | none => st
  else st

/-- One iteration of the single-cycle while loop in main:
Fetch, Decode, ControlUnit, Execute, Mem, Writeback. -/
def stepSingle (program : List (List Bool)) (st : Machine) : Option Machine := do
  let (instr, st1) ← Fetch program st
  let decoded ← Decode instr
  let signals := ControlUnit decoded
  let (alu_res, st2) := Execute decoded signals st1
  let (mem_data, st3, _e) := Mem alu_res decoded signals st2
  pure (Writeback decoded signals alu_res mem_data st3)

/-- The single-cycle driver loop of main: run while pc // 4 is below
the program length.  Fuel bounds the iteration count; none means the
fuel ran out (or a step raised). -/
def runSingle : Nat → List (List Bool) → Machine → Option Machine
  | 0, _, _ => none
  | fuel + 1, program, st =>
    if st.pc.fdiv 4 < (program.length : Int) then
      match stepSingle program st with
      | none => none
      | some st1 => runSingle fuel program st1
    else some st

/-- The IF/ID pipeline latch; the default value is the nop (bubble)
dictionary used by run_pipelined. -/
structure IFID where
  nop : Bool := true
  instr : Option (List Bool) := none
  pc : Int := 0
deriving DecidableEq

/-- The ID/EX pipeline latch. -/
structure IDEX where
  nop : Bool := true
  decoded : Option Decoded := none
  signals : Option Signals := none
  pc : Int := 0
deriving DecidableEq

/-- The EX/MEM pipeline latch. -/
structure EXMEM where
  nop : Bool := true
  alu_res : Option Int := none
  decoded : Option Decoded := none
  signals : Option Signals := none
  pc : Int := 0
deriving DecidableEq

/-- The MEM/WB pipeline latch. -/
structure MEMWB where
  nop : Bool := true
  alu_res : Option Int := none
  mem_data : Option Int := none
  decoded : Option Decoded := none
  signals : Option Signals := none
  pc : Int := 0
deriving DecidableEq

/-- The four pipeline latches of run_pipelined; the default value is
the all-bubble configuration the loop starts from. -/
structure PipeState where
  if_id : IFID := {}
  id_ex : IDEX := {}
  ex_mem : EXMEM := {}
  mem_wb : MEMWB := {}
deriving DecidableEq

/-- All four latches empty: the drain half of the loop condition. -/
def allNop (ps : PipeState) : Bool :=
  ps.if_id.nop && ps.id_ex.nop && ps.ex_mem.nop && ps.mem_wb.nop

/-- The Writeback block of the run_pipelined loop body: when MEM/WB is
occupied, run pipeline_Writeback on its payload (a missing payload
would make Python raise, embedded as none). -/
def wbStage (ps : PipeState) (st : Machine) : Option Machine :=
  if ps.mem_wb.nop then some st
  else do
    let d ← ps.mem_wb.decoded
    let s ← ps.mem_wb.signals
    some (pipeline_Writeback d s ps.mem_wb.alu_res ps.mem_wb.mem_data st)

/-- The Memory block of the run_pipelined loop body: when EX/MEM is
occupied, run Mem on its payload and build the next MEM/WB latch, else
the next MEM/WB latch is a bubble. -/
def memStage (ps : PipeState) (st : Machine) : Option (MEMWB × Machine) :=
  if ps.ex_mem.nop then some (({} : MEMWB), st)
  else do
    let d ← ps.ex_mem.decoded
    let s ← ps.ex_mem.signals
    let r := Mem ps.ex_mem.alu_res d s st
    some (({ nop := false, alu_res := ps.ex_mem.alu_res, mem_data := r.1, decoded := some d, signals := some s, pc := ps.ex_mem.pc } : MEMWB), r.2.1)

/-- The Execute block of the run_pipelined loop body: when ID/EX is
occupied, run Execute on its payload and build the next EX/MEM latch,
else the next EX/MEM latch is a bubble. -/
def exStage (ps : PipeState) (st : Machine) : Option (EXMEM × Machine) :=
  if ps.id_ex.nop then some (({} : EXMEM), st)
  else do
    let d ← ps.id_ex.decoded
    let s ← ps.id_ex.signals
    let r := Execute d s st
    some (({ nop := false, alu_res := r.1, decoded := some d, signals := some s, pc := ps.id_ex.pc } : EXMEM), r.2)

/-- The Decode block of the run_pipelined loop body: decode the
instruction held in IF/ID and generate its control signals; an empty
IF/ID yields None for both. -/
def decStage (ps : PipeState) : Option (Option (Decoded × Signals)) :=
  if ps.if_id.nop then some none
  else do
    let instr ← ps.if_id.instr
    let d ← Decode instr
    some (some (d, ControlUnit d))

/-- The load-use hazard test of run_pipelined: ID/EX occupied with
MemRead set and its destination register (as an optional value) equal
to either optional source register of the instruction just decoded
from IF/ID. -/
def hazardStall (ps : PipeState) (decoded_if : Option (Decoded × Signals)) : Bool :=
  !ps.id_ex.nop &&
  (match ps.id_ex.signals with
    | some s => s.MemRead == 1
    | none => false) &&
  (let rdOpt := match ps.id_ex.decoded with
    | some d => d.rd
    | none => none
   let rs1Opt := match decoded_if with
    | some ds => ds.1.rs1
    | none => none
   let rs2Opt := match decoded_if with
    | some ds => ds.1.rs2
    | none => none
   rdOpt == rs1Opt || rdOpt == rs2Opt)

/-- One iteration of the run_pipelined clock loop: increment the cycle
counter, then run Writeback, Mem, Execute, Decode with hazard
detection, and Fetch, in that order, building the next latch values
that replace all four latches at the end of the cycle. -/
def stepPipe (program : List (List Bool)) (ps : PipeState) (st : Machine) :
    Option (PipeState × Machine) := do
  let st := { st with total_clock_cycles := st.total_clock_cycles + 1 }
  let st ← wbStage ps st
  let (next_mem_wb, st) ← memStage ps st
  let (next_ex_mem, st) ← exStage ps st
  let decoded_if ← decStage ps
  if hazardStall ps decoded_if then
    -- next ID/EX is a bubble, IF/ID is frozen, pc is unchanged
    some ({ if_id := ps.if_id, id_ex := {}, ex_mem := next_ex_mem, mem_wb := next_mem_wb }, st)
  else
    let next_id_ex : IDEX :=
      match decoded_if with
      | some ds => { nop := false, decoded := some ds.1, signals := some ds.2, pc := ps.if_id.pc }
      | none => {}
    if st.pc.fdiv 4 < (program.length : Int) then do
      let (instr, st1) ← Fetch program st
      let next_if_id : IFID := { nop := false, instr := some instr, pc := st1.current_instr_pc }
      let st2 := { st1 with pc := st1.next_pc }
      some ({ if_id := next_if_id, id_ex := next_id_ex, ex_mem := next_ex_mem, mem_wb := next_mem_wb }, st2)
    else
      some ({ if_id := {}, id_ex := next_id_ex, ex_mem := next_ex_mem, mem_wb := next_mem_wb }, st)

/-- The run_pipelined clock loop: run until all four latches are empty
and fetch has exhausted the program.  Fuel bounds the cycle count;
none means the fuel ran out (or a cycle raised). -/
def runPipe : Nat → List (List Bool) → PipeState → Machine → Option Machine
  | 0, _, _, _ => none
  | fuel + 1, program, ps, st =>
    if allNop ps ∧ (program.length : Int) ≤ st.pc.fdiv 4 then some st
    else match stepPipe program ps st with
      | none => none
      | some pair => runPipe fuel program pair.1 pair.2

/-- The initial architectural state run_pipelined and main install for
the sample_part1 fixture: rf[1]=0x20, rf[2]=0x5, rf[10]=0x70,
rf[11]=0x4, d_mem[28]=0x5, d_mem[29]=0x10, everything else zero. -/
def presetMachine : Machine :=
  { rf := setCell (setCell (setCell (setCell (fun _ => 0) 1 0x20) 2 0x5) 10 0x70) 11 0x4,
    d_mem := setCell (setCell (fun _ => 0) 28 0x5) 29 0x10 }

/-- A machine with all registers and memory zero, pc = 0. -/
def zeroMachine : Machine := {}

/-- Two's-complement encoding of an integer into w bits, the encoder
side of the sign-extension round-trip property (the decoder side,
sign_extend, is the embedding of the source helper). -/
def encodeBits (w : Nat) (v : Int) : List Bool :=
  natToBits w (v % (2 ^ w)).toNat

/-- Fixture program lw x2, 0(x10); add x3, x2, x2: a load immediately
followed by a dependent arithmetic instruction (load-use hazard). -/
def progLoadUse : List (List Bool) := [w32 0x00052103, w32 0x002101B3]

/-- Fixture program addi x1, x0, 5; add x2, x1, x1: an arithmetic
instruction immediately followed by a dependent arithmetic instruction
(a distance-one data dependence with no load involved). -/
def progHazard : List (List Bool) := [w32 0x00500093, w32 0x00108133]


/-- Decoded form of lw x2, 0(x10), the first fixture instruction. -/
def lwDec : Decoded :=
  { type := .I, mnemonic := "lw", rs1 := some 10, rs2 := none, rd := some 2, imm := some 0 }

/-- Decoded form of add x3, x2, x2, the second fixture instruction. -/
def addDec : Decoded :=
  { type := .R, mnemonic := "add", rs1 := some 2, rs2 := some 2, rd := some 3, imm := none }

/-- Decoded form of beq x0, x0, with branch immediate 4. -/
def beqDec : Decoded :=
  { type := .SB, mnemonic := "beq", rs1 := some 0, rs2 := some 0, rd := none, imm := some 4 }

/-- Decoded form of addi x1, x0, 5. -/
def addiDec : Decoded :=
  { type := .I, mnemonic := "addi", rs1 := some 0, rs2 := none, rd := some 1, imm := some 5 }

/-- Decoded form of slti x2, x1, 3, a decodable but unsupported
instruction. -/
def sltiDec : Decoded :=
  { type := .I, mnemonic := "slti", rs1 := some 1, rs2 := none, rd := some 2, imm := some 3 }

/-- The pipeline configuration at the cycle where the load-use hazard
of progLoadUse is detected: the add sits in IF/ID, the lw (with its
control signals) sits in ID/EX. -/
def c3ps : PipeState :=
  { if_id := { nop := false, instr := some (w32 0x002101B3), pc := 4 },
    id_ex := { nop := false, decoded := some lwDec, signals := some (ControlUnit lwDec), pc := 0 } }

/-- Folding the binary accumulator over a list from a given start. -/
theorem bitsToNat_foldl (l : List Bool) (acc : Nat) :
    l.foldl (fun a b => 2 * a + bitVal b) acc = acc * 2 ^ l.length + bitsToNat l := by
  induction l generalizing acc with
  | nil => simp [bitsToNat]
  | cons b t ih =>
    simp only [List.foldl_cons, bitsToNat, List.length_cons]
    rw [ih, ih (2 * 0 + bitVal b)]
    ring

/-- Appending a final bit doubles the value and adds the bit. -/
theorem bitsToNat_append_bit (l : List Bool) (b : Bool) :
    bitsToNat (l ++ [b]) = 2 * bitsToNat l + bitVal b := by
  unfold bitsToNat
  rw [List.foldl_append]
  rfl

/-- natToBits produces exactly w bits. -/
theorem natToBits_length (w n : Nat) : (natToBits w n).length = w := by
  induction w generalizing n with
  | zero => rfl
  | succ k ih => simp [natToBits, ih]

/-- natToBits is a right inverse of bitsToNat modulo 2 ^ w. -/
theorem bitsToNat_natToBits (w n : Nat) : bitsToNat (natToBits w n) = n % 2 ^ w := by
  induction w generalizing n with
  | zero => simp [natToBits, bitsToNat, Nat.mod_one]
  | succ k ih =>
    have hfold := bitsToNat_foldl (natToBits k n) (2 * 0 + bitVal (decide (n / 2 ^ k % 2 = 1)))
    have hlen := natToBits_length k n
    have hbv : bitVal (decide (n / 2 ^ k % 2 = 1)) = n / 2 ^ k % 2 := by
      have h2 : n / 2 ^ k % 2 = 0 ∨ n / 2 ^ k % 2 = 1 := by omega
      rcases h2 with h | h <;> simp [bitVal, h]
    have hsplit : n % 2 ^ (k + 1) = n % 2 ^ k + 2 ^ k * (n / 2 ^ k % 2) := by
      rw [pow_succ]
      exact Nat.mod_mul
    simp only [natToBits, bitsToNat, List.foldl_cons] at *
    rw [hfold, hlen, hbv, ih, hsplit]
    ring

/-- The leading bit of a (w+1)-bit rendering of n < 2 ^ (w+1) tests
whether n reaches 2 ^ w. -/
theorem natToBits_headI (w n : Nat) (h : n < 2 ^ (w + 1)) :
    (natToBits (w + 1) n).headI = decide (2 ^ w ≤ n) := by
  have hpos : 0 < 2 ^ w := Nat.pos_pow_of_pos w (by norm_num)
  have hqlt : n / 2 ^ w < 2 := by
    rw [Nat.div_lt_iff_lt_mul hpos]
    rw [pow_succ] at h
    omega
  have hmod : n / 2 ^ w % 2 = n / 2 ^ w := Nat.mod_eq_of_lt hqlt
  have hone : 1 ≤ n / 2 ^ w ↔ 2 ^ w ≤ n := Nat.one_le_div_iff hpos
  simp only [natToBits, List.headI]
  rw [hmod]
  by_cases hle : 2 ^ w ≤ n
  · simp [hle, Nat.le_antisymm (by omega) (hone.mpr hle)]
  · have : n / 2 ^ w = 0 := by omega
    simp [hle, this]

/-- Sign extension inverts two's-complement encoding on the
representable range, for any positive width k + 1. -/
theorem sign_extend_encodeBits (k : Nat) (v : Int)
    (hlo : -(2 ^ k : Int) ≤ v) (hhi : v ≤ 2 ^ k - 1) :
    sign_extend (encodeBits (k + 1) v) (k + 1) = v := by
  have hA : ((2 ^ k : Nat) : Int) = 2 ^ k := by push_cast; ring
  have hM : ((2 ^ (k + 1) : Nat) : Int) = 2 ^ (k + 1) := by push_cast; ring
  have hMA : (2 : Int) ^ (k + 1) = 2 ^ k * 2 := pow_succ 2 k
  have hMAn : (2 : Nat) ^ (k + 1) = 2 ^ k * 2 := pow_succ 2 k
  rcases le_or_lt 0 v with hv | hv
  · -- nonnegative case: the encoding is v itself and the sign bit is clear
    have hvlt : v < 2 ^ (k + 1) := by omega
    have hemod : v % (2 ^ (k + 1)) = v := Int.emod_eq_of_lt hv hvlt
    have htn : ((v.toNat : Nat) : Int) = v := Int.toNat_of_nonneg hv
    have htlt : v.toNat < 2 ^ (k + 1) := by omega
    have hhead : (natToBits (k + 1) v.toNat).headI = decide (2 ^ k ≤ v.toNat) :=
      natToBits_headI k v.toNat htlt
    have hsb : ¬ (2 ^ k ≤ v.toNat) := by omega
    have hval : bitsToNat (natToBits (k + 1) v.toNat) = v.toNat := by
      rw [bitsToNat_natToBits]
      exact Nat.mod_eq_of_lt htlt
    unfold encodeBits sign_extend
    rw [hemod, hhead, hval]
    simp [hsb, htn]
  · -- negative case: the encoding is v + 2 ^ (k+1) and the sign bit is set
    have hshift : v % (2 ^ (k + 1)) = v + 2 ^ (k + 1) := by
      have h1 : (v + 2 ^ (k + 1)) % (2 ^ (k + 1)) = v % (2 ^ (k + 1)) := by
        simp [Int.add_mul_emod_self_left]
      have h2 : (v + 2 ^ (k + 1)) % (2 ^ (k + 1)) = v + 2 ^ (k + 1) :=
        Int.emod_eq_of_lt (by omega) (by omega)
      omega
    have hnn : (0 : Int) ≤ v + 2 ^ (k + 1) := by omega
    have htn : (((v + 2 ^ (k + 1)).toNat : Nat) : Int) = v + 2 ^ (k + 1) :=
      Int.toNat_of_nonneg hnn
    have htlt : (v + 2 ^ (k + 1)).toNat < 2 ^ (k + 1) := by omega
    have hsb : 2 ^ k ≤ (v + 2 ^ (k + 1)).toNat := by omega
    have hhead : (natToBits (k + 1) (v + 2 ^ (k + 1)).toNat).headI = decide (2 ^ k ≤ (v + 2 ^ (k + 1)).toNat) :=
      natToBits_headI k _ htlt
    have hval : bitsToNat (natToBits (k + 1) (v + 2 ^ (k + 1)).toNat) = (v + 2 ^ (k + 1)).toNat := by
      rw [bitsToNat_natToBits]
      exact Nat.mod_eq_of_lt htlt
    unfold encodeBits sign_extend
    rw [hshift, hhead, hval, if_pos (decide_eq_true hsb)]
    omega


/-- Successful Fetch: the instruction at pc // 4 together with the
recorded current_instr_pc, computed next_pc, and advanced pc. -/
theorem Fetch_eq (program : List (List Bool)) (st : Machine) (instr : List Bool)
    (h : pyGet program (st.pc.fdiv 4) = some instr) :
    Fetch program st = some (instr,
      { st with current_instr_pc := st.pc, next_pc := st.pc + 4, pc := st.pc + 4 }) := by
  unfold Fetch
  rw [h]

/-- Mem never changes the program counter. -/
theorem Mem_pc (a : Option Int) (d : Decoded) (s : Signals) (st : Machine) :
    (Mem a d s st).2.1.pc = st.pc := by
  unfold Mem
  dsimp only
  repeat' split
  all_goals rfl

/-- Mem never changes the register file. -/
theorem Mem_rf (a : Option Int) (d : Decoded) (s : Signals) (st : Machine) :
    (Mem a d s st).2.1.rf = st.rf := by
  unfold Mem
  dsimp only
  repeat' split
  all_goals rfl

/-- Mem with neither MemRead nor MemWrite returns no data and leaves
the machine untouched. -/
theorem Mem_nop (a : Option Int) (d : Decoded) (s : Signals) (st : Machine)
    (h1 : s.MemRead ≠ 1) (h2 : s.MemWrite ≠ 1) :
    Mem a d s st = (none, st, false) := by
  simp [Mem, h1, h2]

/-- Execute never changes the register file. -/
theorem Execute_rf (d : Decoded) (s : Signals) (st : Machine) :
    (Execute d s st).2.rf = st.rf := by
  unfold Execute
  dsimp only
  repeat' split
  all_goals rfl

/-- Execute never changes the data memory. -/
theorem Execute_dmem (d : Decoded) (s : Signals) (st : Machine) :
    (Execute d s st).2.d_mem = st.d_mem := by
  unfold Execute
  dsimp only
  repeat' split
  all_goals rfl

/-- Execute leaves pc alone unless the instruction is jal or jalr or a
taken branch; a cleared Branch signal rules the branch out. -/
theorem Execute_pc (d : Decoded) (s : Signals) (st : Machine)
    (h1 : d.mnemonic ≠ "jal") (h2 : d.mnemonic ≠ "jalr") (h3 : s.Branch = 0) :
    (Execute d s st).2.pc = st.pc := by
  simp [Execute, h1, h2, h3]

/-- Writeback never changes the program counter. -/
theorem Writeback_pc (d : Decoded) (s : Signals) (a m : Option Int) (st : Machine) :
    (Writeback d s a m st).pc = st.pc := by
  unfold Writeback
  dsimp only
  repeat' split
  all_goals rfl

/-- Writeback never writes register 0: the rd not in (None, 0) guard. -/
theorem Writeback_rf0 (d : Decoded) (s : Signals) (a m : Option Int) (st : Machine) :
    (Writeback d s a m st).rf 0 = st.rf 0 := by
  unfold Writeback
  dsimp only
  repeat' split
  all_goals simp_all [setCell, eq_comm]

/-- pipeline_Writeback never changes the program counter. -/
theorem pipeline_Writeback_pc (d : Decoded) (s : Signals) (a m : Option Int) (st : Machine) :
    (pipeline_Writeback d s a m st).pc = st.pc := by
  unfold pipeline_Writeback
  dsimp only
  repeat' split
  all_goals rfl

/-- pipeline_Writeback never changes the data memory. -/
theorem pipeline_Writeback_dmem (d : Decoded) (s : Signals) (a m : Option Int) (st : Machine) :
    (pipeline_Writeback d s a m st).d_mem = st.d_mem := by
  unfold pipeline_Writeback
  dsimp only
  repeat' split
  all_goals rfl

/-- pipeline_Writeback never writes register 0. -/
theorem pipeline_Writeback_rf0 (d : Decoded) (s : Signals) (a m : Option Int) (st : Machine) :
    (pipeline_Writeback d s a m st).rf 0 = st.rf 0 := by
  unfold pipeline_Writeback
  dsimp only
  repeat' split
  all_goals simp_all [setCell, eq_comm]


/-- Successful Fetch followed by successful Decode determines one
single-cycle iteration: the remaining stages compose on the
fetched-and-advanced machine. -/
theorem stepSingle_eq (program : List (List Bool)) (st : Machine) (instr : List Bool) (d : Decoded)
    (h1 : pyGet program (st.pc.fdiv 4) = some instr)
    (h2 : Decode instr = some d) :
    stepSingle program st =
      some (
        let s := ControlUnit d
        let stF := { st with current_instr_pc := st.pc, next_pc := st.pc + 4, pc := st.pc + 4 }
        let er := Execute d s stF
        let mr := Mem er.1 d s er.2
        Writeback d s er.1 mr.1 mr.2.1) := by
  simp [stepSingle, Fetch_eq program st instr h1, h2]

theorem stepSingle_pc_plain (program : List (List Bool)) (st : Machine) (instr : List Bool) (d : Decoded)
    (h1 : pyGet program (st.pc.fdiv 4) = some instr)
    (h2 : Decode instr = some d)
    (hj : d.mnemonic ≠ "jal") (hr : d.mnemonic ≠ "jalr") (hb : (ControlUnit d).Branch = 0) :
    (stepSingle program st).map Machine.pc = some (st.pc + 4) := by
  rw [stepSingle_eq program st instr d h1 h2]
  dsimp only [Option.map_some']
  rw [Writeback_pc, Mem_pc, Execute_pc _ _ _ hj hr hb]

theorem stepSingle_pc_beq (program : List (List Bool)) (st : Machine) (instr : List Bool)
    (d : Decoded) (r1 r2 : Nat) (imm : Int)
    (h1 : pyGet program (st.pc.fdiv 4) = some instr)
    (h2 : Decode instr = some d)
    (hm : d.mnemonic = "beq") (hr1 : d.rs1 = some r1) (hr2 : d.rs2 = some r2)
    (hi : d.imm = some imm) :
    (stepSingle program st).map Machine.pc =
      some (if st.rf r1 = st.rf r2 then st.pc + 4 + imm * 2 else st.pc + 4) := by
  rw [stepSingle_eq program st instr d h1 h2]
  have hs : ControlUnit d = { Branch := 1, ALUSrc := 0, ALUControl := some "sub" } := by
    simp +decide [ControlUnit, hm]
  dsimp only [Option.map_some']
  rw [hs]
  simp +decide [Execute, executeOperands, ALU, hm, hr1, hr2, hi, Mem, Writeback, sub_eq_zero]
  split <;> simp

theorem stepSingle_pc_jal (program : List (List Bool)) (st : Machine) (instr : List Bool) (d : Decoded)
    (h1 : pyGet program (st.pc.fdiv 4) = some instr)
    (h2 : Decode instr = some d) (hm : d.mnemonic = "jal") :
    (stepSingle program st).map Machine.pc = some (st.pc + d.imm.getD 0) := by
  rw [stepSingle_eq program st instr d h1 h2]
  have hs : ControlUnit d = { RegWrite := 1, ALUSrc := 1, Branch := 1, ALUControl := some "add" } := by
    simp +decide [ControlUnit, hm]
  dsimp only [Option.map_some']
  rw [hs]
  simp +decide [Execute, executeOperands, ALU, hm, Mem, Writeback]
  rcases hrd : d.rd with _ | rd
  all_goals simp [hrd]
  all_goals first | rfl | (split <;> rfl)

theorem stepSingle_pc_jalr (program : List (List Bool)) (st : Machine) (instr : List Bool) (d : Decoded)
    (h1 : pyGet program (st.pc.fdiv 4) = some instr)
    (h2 : Decode instr = some d) (hm : d.mnemonic = "jalr") :
    (stepSingle program st).map Machine.pc =
      some (Int.land (st.rf (d.rs1.getD 0) + d.imm.getD 0) (-2)) := by
  rw [stepSingle_eq program st instr d h1 h2]
  have hs : ControlUnit d = { RegWrite := 1, ALUSrc := 1, Branch := 0, ALUControl := some "add" } := by
    simp +decide [ControlUnit, hm]
  dsimp only [Option.map_some']
  rw [hs]
  simp +decide [Execute, executeOperands, ALU, hm, Mem, Writeback]
  rcases hrd : d.rd with _ | rd
  all_goals simp [hrd]
  all_goals first | rfl | (split <;> rfl)


/-- Reduction of a monadic bind on a present optional value. -/
theorem someBindEq {α β : Type} (x : α) (f : α → Option β) : (some x >>= f) = f x := rfl

/-- Fetch never changes the register file. -/
theorem Fetch_rf (program : List (List Bool)) (st st1 : Machine) (instr : List Bool)
    (h : Fetch program st = some (instr, st1)) : st1.rf = st.rf := by
  unfold Fetch at h
  split at h
  · exact absurd h (by simp)
  · simp only [Option.some.injEq, Prod.mk.injEq] at h
    rw [← h.2]

/-- One single-cycle iteration never changes register 0. -/
theorem stepSingle_rf0 (program : List (List Bool)) (st st1 : Machine)
    (h : stepSingle program st = some st1) : st1.rf 0 = st.rf 0 := by
  unfold stepSingle at h
  cases hf : Fetch program st with
  | none => rw [hf] at h; cases h
  | some pr =>
    obtain ⟨instr, stF⟩ := pr
    rw [hf] at h
    simp only [someBindEq] at h
    try dsimp only at h
    cases hd : Decode instr with
    | none => rw [hd] at h; cases h
    | some d =>
      rw [hd] at h
      simp only [someBindEq, Option.pure_def, Option.some.injEq] at h
      rw [← h, Writeback_rf0, Mem_rf, Execute_rf, Fetch_rf program st stF instr hf]

/-- The register-0 cell survives any number of single-cycle
iterations. -/
theorem runSingle_rf0 (fuel : Nat) (program : List (List Bool)) (st st1 : Machine)
    (h : runSingle fuel program st = some st1) : st1.rf 0 = st.rf 0 := by
  induction fuel generalizing st with
  | zero => cases h
  | succ k ih =>
    unfold runSingle at h
    split at h
    · cases hs : stepSingle program st with
      | none => rw [hs] at h; cases h
      | some st2 =>
        rw [hs] at h
        rw [ih st2 h, stepSingle_rf0 program st st2 hs]
    · cases h; rfl

/-- The Writeback block of the pipelined loop never changes register 0. -/
theorem wbStage_rf0 (ps : PipeState) (st st1 : Machine)
    (h : wbStage ps st = some st1) : st1.rf 0 = st.rf 0 := by
  unfold wbStage at h
  split at h
  · cases h; rfl
  · cases hd : ps.mem_wb.decoded with
    | none => rw [hd] at h; cases h
    | some d =>
      rw [hd] at h
      cases hsg : ps.mem_wb.signals with
      | none => rw [hsg] at h; cases h
      | some s =>
        rw [hsg] at h
        simp only [someBindEq, Option.some.injEq] at h
        rw [← h, pipeline_Writeback_rf0]

/-- The Writeback block of the pipelined loop never changes pc. -/
theorem wbStage_pc (ps : PipeState) (st st1 : Machine)
    (h : wbStage ps st = some st1) : st1.pc = st.pc := by
  unfold wbStage at h
  split at h
  · cases h; rfl
  · cases hd : ps.mem_wb.decoded with
    | none => rw [hd] at h; cases h
    | some d =>
      rw [hd] at h
      cases hsg : ps.mem_wb.signals with
      | none => rw [hsg] at h; cases h
      | some s =>
        rw [hsg] at h
        simp only [someBindEq, Option.some.injEq] at h
        rw [← h, pipeline_Writeback_pc]

/-- The Memory block of the pipelined loop never changes the register
file. -/
theorem memStage_rf (ps : PipeState) (st : Machine) (out : MEMWB × Machine)
    (h : memStage ps st = some out) : out.2.rf = st.rf := by
  unfold memStage at h
  split at h
  · cases h; rfl
  · cases hd : ps.ex_mem.decoded with
    | none => rw [hd] at h; cases h
    | some d =>
      rw [hd] at h
      cases hsg : ps.ex_mem.signals with
      | none => rw [hsg] at h; cases h
      | some s =>
        rw [hsg] at h
        simp only [someBindEq, Option.some.injEq] at h
        rw [← h, Mem_rf]

/-- The Memory block of the pipelined loop never changes pc. -/
theorem memStage_pc (ps : PipeState) (st : Machine) (out : MEMWB × Machine)
    (h : memStage ps st = some out) : out.2.pc = st.pc := by
  unfold memStage at h
  split at h
  · cases h; rfl
  · cases hd : ps.ex_mem.decoded with
    | none => rw [hd] at h; cases h
    | some d =>
      rw [hd] at h
      cases hsg : ps.ex_mem.signals with
      | none => rw [hsg] at h; cases h
      | some s =>
        rw [hsg] at h
        simp only [someBindEq, Option.some.injEq] at h
        rw [← h, Mem_pc]

/-- The Execute block of the pipelined loop never changes the register
file. -/
theorem exStage_rf (ps : PipeState) (st : Machine) (out : EXMEM × Machine)
    (h : exStage ps st = some out) : out.2.rf = st.rf := by
  unfold exStage at h
  split at h
  · cases h; rfl
  · cases hd : ps.id_ex.decoded with
    | none => rw [hd] at h; cases h
    | some d =>
      rw [hd] at h
      cases hsg : ps.id_ex.signals with
      | none => rw [hsg] at h; cases h
      | some s =>
        rw [hsg] at h
        simp only [someBindEq, Option.some.injEq] at h
        rw [← h, Execute_rf]

/-- The Execute block of the pipelined loop keeps pc unchanged when the
instruction in ID/EX is no jump and its Branch signal is clear. -/
theorem exStage_pc (ps : PipeState) (st : Machine) (out : EXMEM × Machine)
    (d : Decoded) (s : Signals)
    (hd : ps.id_ex.decoded = some d) (hsg : ps.id_ex.signals = some s)
    (hj : d.mnemonic ≠ "jal") (hr : d.mnemonic ≠ "jalr") (hb : s.Branch = 0)
    (h : exStage ps st = some out) : out.2.pc = st.pc := by
  unfold exStage at h
  split at h
  · cases h; rfl
  · rw [hd, hsg] at h
    simp only [someBindEq, Option.some.injEq] at h
    rw [← h, Execute_pc _ _ _ hj hr hb]


/-- An occupied IF/ID with a decodable instruction determines the
Decode block's result. -/
theorem decStage_eq (ps : PipeState) (instr : List Bool) (dIf : Decoded)
    (hifne : ps.if_id.nop = false) (hinstr : ps.if_id.instr = some instr)
    (hdec : Decode instr = some dIf) :
    decStage ps = some (some (dIf, ControlUnit dIf)) := by
  unfold decStage
  rw [if_neg (by simp [hifne]), hinstr]
  simp only [someBindEq, hdec]

/-- The hazard test fires when ID/EX holds a MemRead instruction whose
destination matches a source of the newly decoded instruction. -/
theorem hazardStall_true (ps : PipeState) (d dIf : Decoded) (s s2 : Signals)
    (hne : ps.id_ex.nop = false)
    (hd : ps.id_ex.decoded = some d) (hs : ps.id_ex.signals = some s)
    (hmr : s.MemRead = 1)
    (hmatch : d.rd = dIf.rs1 ∨ d.rd = dIf.rs2) :
    hazardStall ps (some (dIf, s2)) = true := by
  unfold hazardStall
  rw [hne, hd, hs]
  rcases hmatch with hm2 | hm2 <;> simp [hmr, hm2]

/-- Under the load-use hazard conditions, one pipelined cycle turns the
next ID/EX latch into a bubble, freezes IF/ID, and leaves pc alone
(the instruction in ID/EX being a load, it neither jumps nor
branches). -/
theorem stepPipe_stall (program : List (List Bool)) (ps : PipeState) (st : Machine)
    (ps1 : PipeState) (st1 : Machine) (d dIf : Decoded) (s : Signals) (instr : List Bool)
    (hne : ps.id_ex.nop = false)
    (hd : ps.id_ex.decoded = some d) (hs : ps.id_ex.signals = some s)
    (hmr : s.MemRead = 1)
    (hifne : ps.if_id.nop = false) (hinstr : ps.if_id.instr = some instr)
    (hdec : Decode instr = some dIf)
    (hmatch : d.rd = dIf.rs1 ∨ d.rd = dIf.rs2)
    (hj : d.mnemonic ≠ "jal") (hr : d.mnemonic ≠ "jalr") (hb : s.Branch = 0)
    (h : stepPipe program ps st = some (ps1, st1)) :
    ps1.id_ex = ({} : IDEX) ∧ ps1.if_id = ps.if_id ∧ st1.pc = st.pc := by
  unfold stepPipe at h
  dsimp only at h
  cases hw : wbStage ps { st with total_clock_cycles := st.total_clock_cycles + 1 } with
  | none => rw [hw] at h; cases h
  | some stW =>
    rw [hw] at h
    simp only [someBindEq] at h
    cases hm : memStage ps stW with
    | none => rw [hm] at h; cases h
    | some om =>
      obtain ⟨nmw, stM⟩ := om
      rw [hm] at h
      simp only [someBindEq] at h
      cases he : exStage ps stM with
      | none => rw [he] at h; cases h
      | some oe =>
        obtain ⟨nem, stE⟩ := oe
        rw [he] at h
        simp only [someBindEq] at h
        rw [decStage_eq ps instr dIf hifne hinstr hdec] at h
        simp only [someBindEq] at h
        rw [if_pos (hazardStall_true ps d dIf s (ControlUnit dIf) hne hd hs hmr hmatch)] at h
        simp only [Option.some.injEq, Prod.mk.injEq] at h
        obtain ⟨h1, h2⟩ := h
        subst h1
        subst h2
        refine ⟨rfl, rfl, ?_⟩
        rw [exStage_pc ps stM (nem, stE) d s hd hs hj hr hb he,
          memStage_pc ps stW (nmw, stM) hm, wbStage_pc ps _ stW hw]

/-- One pipelined cycle never changes register 0. -/
theorem stepPipe_rf0 (program : List (List Bool)) (ps : PipeState) (st : Machine)
    (ps1 : PipeState) (st1 : Machine)
    (h : stepPipe program ps st = some (ps1, st1)) : st1.rf 0 = st.rf 0 := by
  unfold stepPipe at h
  dsimp only at h
  cases hw : wbStage ps { st with total_clock_cycles := st.total_clock_cycles + 1 } with
  | none => rw [hw] at h; cases h
  | some stW =>
    rw [hw] at h
    simp only [someBindEq] at h
    cases hm : memStage ps stW with
    | none => rw [hm] at h; cases h
    | some om =>
      obtain ⟨nmw, stM⟩ := om
      rw [hm] at h
      simp only [someBindEq] at h
      cases he : exStage ps stM with
      | none => rw [he] at h; cases h
      | some oe =>
        obtain ⟨nem, stE⟩ := oe
        rw [he] at h
        simp only [someBindEq] at h
        cases hdc : decStage ps with
        | none => rw [hdc] at h; cases h
        | some dopt =>
          rw [hdc] at h
          simp only [someBindEq] at h
          have hbase : stE.rf 0 = st.rf 0 := by
            rw [congrFun (exStage_rf ps stM (nem, stE) he) 0,
              congrFun (memStage_rf ps stW (nmw, stM) hm) 0,
              wbStage_rf0 ps _ stW hw]
          split at h
          · simp only [Option.some.injEq, Prod.mk.injEq] at h
            rw [← h.2]
            exact hbase
          · split at h
            · cases hf : Fetch program stE with
              | none => rw [hf] at h; cases h
              | some pr =>
                obtain ⟨instr2, stF⟩ := pr
                rw [hf] at h
                simp only [someBindEq] at h
                try dsimp only at h
                simp only [Option.some.injEq, Prod.mk.injEq] at h
                have hfr : stF.rf = stE.rf := Fetch_rf program stE stF instr2 hf
                rw [← h.2]
                show stF.rf 0 = st.rf 0
                rw [congrFun hfr 0]
                exact hbase
            · simp only [Option.some.injEq, Prod.mk.injEq] at h
              rw [← h.2]
              exact hbase

/-- The register-0 cell survives any number of pipelined cycles. -/
theorem runPipe_rf0 (fuel : Nat) (program : List (List Bool)) (ps : PipeState)
    (st st1 : Machine) (h : runPipe fuel program ps st = some st1) :
    st1.rf 0 = st.rf 0 := by
  induction fuel generalizing ps st with
  | zero => cases h
  | succ k ih =>
    unfold runPipe at h
    split at h
    · cases h; rfl
    · cases hs : stepPipe program ps st with
      | none => rw [hs] at h; cases h
      | some pair =>
        rw [hs] at h
        rw [ih pair.1 pair.2 h, stepPipe_rf0 program ps st pair.1 pair.2 (by rw [hs])]


/-- The value of a bit string ending in a zero bit is even, so an
SB-format immediate (decoded with its appended trailing zero and
sign-extended at width 13) is always even. -/
theorem sign_extend13_even (l : List Bool) : ∃ k : Int, sign_extend (l ++ [false]) 13 = 2 * k := by
  unfold sign_extend
  rw [bitsToNat_append_bit]
  have hb : bitVal false = 0 := rfl
  rw [hb]
  split
  · exact ⟨(bitsToNat l : Int) - 4096, by push_cast; ring⟩
  · exact ⟨(bitsToNat l : Int), by push_cast; ring⟩

theorem decode_beq_imm (mc : List Bool) (d : Decoded) (h : Decode mc = some d)
    (hm : d.mnemonic = "beq") :
    ∃ r1 r2 : Nat, ∃ k : Int, d.rs1 = some r1 ∧ d.rs2 = some r2 ∧ d.imm = some (2 * k) := by
  unfold Decode at h
  cases hti : determineInstructionType mc with
  | none => rw [hti] at h; cases h
  | some t =>
    rw [hti] at h
    simp only [someBindEq] at h
    cases hmn : determineMnemonic mc t with
    | none => rw [hmn] at h; cases h
    | some m =>
      rw [hmn] at h
      simp only [someBindEq] at h
      cases t with
      | SB =>
        dsimp only at h
        rw [Option.some.injEq] at h
        subst h
        obtain ⟨k, hk⟩ := sign_extend13_even ([mc.getD 0 false, mc.getD 24 false] ++ sliceBits mc 1 7 ++ sliceBits mc 20 24)
        exact ⟨_, _, k, rfl, rfl, by rw [← hk]⟩
      | R =>
        dsimp only at h
        rw [Option.some.injEq] at h
        subst h
        dsimp only at hm
        subst hm
        dsimp only [determineMnemonic] at hmn
        repeat' split at hmn
        all_goals first
          | exact Option.noConfusion hmn
          | (injection hmn with hx; exact absurd hx (by decide))
      | I =>
        dsimp only at h
        rw [Option.some.injEq] at h
        subst h
        dsimp only at hm
        subst hm
        dsimp only [determineMnemonic] at hmn
        repeat' split at hmn
        all_goals first
          | exact Option.noConfusion hmn
          | (injection hmn with hx; exact absurd hx (by decide))
      | S =>
        dsimp only at h
        rw [Option.some.injEq] at h
        subst h
        dsimp only at hm
        subst hm
        dsimp only [determineMnemonic] at hmn
        repeat' split at hmn
        all_goals first
          | exact Option.noConfusion hmn
          | (injection hmn with hx; exact absurd hx (by decide))
      | UJ =>
        dsimp only at h
        rw [Option.some.injEq] at h
        subst h
        dsimp only at hm
        subst hm
        dsimp only [determineMnemonic] at hmn
        injection hmn with hx
        exact absurd hx (by decide)


/-- C1 counterexample: on addi x1, x0, 5; add x2, x1, x1 from the
all-zero initial state, single-cycle execution ends with x2 = 10 while
pipelined execution ends with x2 = 0 (the add reads x1 before the addi
writes back: there is no forwarding and no stall for arithmetic
dependences), so the two modes do not agree on the final register
file. -/
theorem C1_counterexample :
    ∃ st1 st2 : Machine,
      runSingle 10 progHazard zeroMachine = some st1 ∧
      runPipe 20 progHazard ({} : PipeState) zeroMachine = some st2 ∧
      st1.rf 2 ≠ st2.rf 2 :=
  ⟨_, _, rfl, rfl, by decide⟩

set_option maxHeartbeats 4000000 in
/-- C1 (amended): the two modes agree on the final register file and
data memory for the hazard-free-after-stalling fixture
lw x2, 0(x10); add x3, x2, x2, whatever the initial register file and
data memory contents are (the load-use stall makes the pipelined add
read the loaded value; no other dependence exists). -/
theorem C1_amended (rf0 dm0 : Nat → Int) :
    (runSingle 5 progLoadUse { rf := rf0, d_mem := dm0 }).map (fun s => (s.rf, s.d_mem)) =
    (runPipe 10 progLoadUse ({} : PipeState) { rf := rf0, d_mem := dm0 }).map (fun s => (s.rf, s.d_mem)) := by
  have hd1 : Decode (w32 0x00052103) = some lwDec := by decide
  have hd2 : Decode (w32 0x002101B3) = some addDec := by decide
  by_cases h : 0 ≤ (rf0 10 : Int).fdiv 4 ∧ (rf0 10 : Int).fdiv 4 < (dMemLen : Int)
  · simp +decide [runSingle, runPipe, stepSingle, stepPipe, wbStage, memStage, exStage,
      decStage, hazardStall, Fetch, pyGet, Execute, executeOperands, ALU, Mem, Writeback,
      pipeline_Writeback, ControlUnit, hd1, hd2, h, allNop, progLoadUse, lwDec, addDec]
  · simp +decide [runSingle, runPipe, stepSingle, stepPipe, wbStage, memStage, exStage,
      decStage, hazardStall, Fetch, pyGet, Execute, executeOperands, ALU, Mem, Writeback,
      pipeline_Writeback, ControlUnit, hd1, hd2, h, allNop, progLoadUse, lwDec, addDec]

/-- C2: the code only logs on unsupported operations instead of
failing hard: the ALU returns its initialized result 0 (with the
error report flag) for the unsupported op xor, and the control unit
returns the default-zero signal vector with no ALUControl entry (with
the error report flag) for the unsupported mnemonic slti. -/
theorem C2_unsupported_defaults :
    ALU "xor" 1 2 = (0, true) ∧
    ControlUnit sltiDec =
      { RegWrite := 0, MemRead := 0, MemWrite := 0, ALUSrc := 0, Branch := 0,
        MemToReg := 0, ALUControl := none, err := true } :=
  ⟨rfl, rfl⟩

/-- Only lw sets the MemRead control signal. -/
theorem ControlUnit_MemRead_lw (d : Decoded) (h : (ControlUnit d).MemRead = 1) :
    d.mnemonic = "lw" := by
  unfold ControlUnit at h
  dsimp only at h
  split_ifs at h with h1 h2 h3 h4 h5 h6 h7
  all_goals simp_all

/-- C3: under the load-use hazard condition (ID/EX occupied by a
decoded instruction with the control signals the decode stage stored
for it, its MemRead signal set - so the instruction is a lw, which
neither jumps nor branches - and its destination register equal to a
source register of the instruction decoded from the occupied IF/ID),
the cycle produces a bubble in ID/EX, freezes IF/ID, and leaves pc
unchanged; and on the fixture lw x2, 0(x10); add x3, x2, x2 with the
preset state carrying v at the loaded cell 28, the pipelined run
retires in exactly 7 cycles (6 plus exactly one stall) with
x3 = 2 * v. -/
theorem C3_load_use_stall (program : List (List Bool)) (ps : PipeState) (st : Machine)
    (ps1 : PipeState) (st1 : Machine) (d dIf : Decoded) (instr : List Bool)
    (hne : ps.id_ex.nop = false)
    (hd : ps.id_ex.decoded = some d) (hs : ps.id_ex.signals = some (ControlUnit d))
    (hmr : (ControlUnit d).MemRead = 1)
    (hifne : ps.if_id.nop = false) (hinstr : ps.if_id.instr = some instr)
    (hdec : Decode instr = some dIf)
    (hmatch : d.rd = dIf.rs1 ∨ d.rd = dIf.rs2)
    (h : stepPipe program ps st = some (ps1, st1)) :
    (ps1.id_ex = ({} : IDEX) ∧ ps1.if_id = ps.if_id ∧ st1.pc = st.pc) ∧
    (∀ v : Int,
      (runPipe 10 progLoadUse ({} : PipeState)
          { presetMachine with d_mem := setCell presetMachine.d_mem 28 v }).map
        (fun s2 => (s2.rf 3, s2.total_clock_cycles)) = some (2 * v, 7)) := by
  have hlw : d.mnemonic = "lw" := ControlUnit_MemRead_lw d hmr
  refine ⟨stepPipe_stall program ps st ps1 st1 d dIf (ControlUnit d) instr hne hd hs hmr
    hifne hinstr hdec hmatch (by rw [hlw]; decide) (by rw [hlw]; decide)
    (by simp +decide [ControlUnit, hlw]) h, ?_⟩
  intro v
  rw [two_mul]
  rfl

/-- C3 witness: the hazard cycle of the fixture program, concretely. -/
theorem C3_witness :
    ∃ ps1 st1, stepPipe progLoadUse c3ps presetMachine = some (ps1, st1) ∧
      ps1.id_ex = ({} : IDEX) ∧ ps1.if_id = c3ps.if_id ∧ st1.pc = presetMachine.pc := by
  have hsome : (stepPipe progLoadUse c3ps presetMachine).isSome = true := by decide
  have heq : stepPipe progLoadUse c3ps presetMachine =
      some ((stepPipe progLoadUse c3ps presetMachine).get hsome) := (Option.some_get hsome).symm
  have hmain := C3_load_use_stall progLoadUse c3ps presetMachine
    ((stepPipe progLoadUse c3ps presetMachine).get hsome).1
    ((stepPipe progLoadUse c3ps presetMachine).get hsome).2
    lwDec addDec (w32 0x002101B3)
    rfl rfl rfl rfl rfl rfl (by decide) (Or.inl rfl) heq
  exact ⟨_, _, heq, hmain.1⟩

/-- C4: a fetched and decoded beq with equal register operands
redirects pc to currentInstrPC + 4 + (imm << 1); with unequal operands
pc ends the instruction at currentInstrPC + 4. -/
theorem C4_beq_pc (program : List (List Bool)) (st : Machine) (instr : List Bool)
    (d : Decoded) (r1 r2 : Nat) (imm : Int)
    (h1 : pyGet program (st.pc.fdiv 4) = some instr)
    (h2 : Decode instr = some d)
    (hm : d.mnemonic = "beq") (hr1 : d.rs1 = some r1) (hr2 : d.rs2 = some r2)
    (hi : d.imm = some imm) :
    (stepSingle program st).map Machine.pc =
      some (if st.rf r1 = st.rf r2 then st.pc + 4 + imm * 2 else st.pc + 4) :=
  stepSingle_pc_beq program st instr d r1 r2 imm h1 h2 hm hr1 hr2 hi

/-- C4 witness: beq x0, x0 with immediate 4 from pc 0 is taken (x0
equals x0) and lands on 0 + 4 + (4 << 1) = 12. -/
theorem C4_witness :
    (stepSingle [w32 0x00000263] zeroMachine).map Machine.pc =
      some (if zeroMachine.rf 0 = zeroMachine.rf 0 then zeroMachine.pc + 4 + 4 * 2
        else zeroMachine.pc + 4) :=
  C4_beq_pc [w32 0x00000263] zeroMachine (w32 0x00000263) beqDec 0 0 4
    (by decide) (by decide) rfl rfl rfl rfl

/-- C5: register 0 is hard-wired to zero: when it starts at zero it is
still zero after any number of single-cycle instructions and after any
number of pipelined cycles (every write-back path drops rd = 0,
including the jal and jalr link writes). -/
theorem C5_reg0 (fuel : Nat) (program : List (List Bool)) (st : Machine) (ps : PipeState)
    (h0 : st.rf 0 = 0) :
    (∀ st1, runSingle fuel program st = some st1 → st1.rf 0 = 0) ∧
    (∀ st1, runPipe fuel program ps st = some st1 → st1.rf 0 = 0) := by
  constructor
  · intro st1 h
    rw [runSingle_rf0 fuel program st st1 h, h0]
  · intro st1 h
    rw [runPipe_rf0 fuel program ps st st1 h, h0]

/-- C5 witness: both runners on the two-instruction fixture keep
register 0 at zero. -/
theorem C5_witness :
    (∀ st1, runSingle 8 progHazard zeroMachine = some st1 → st1.rf 0 = 0) ∧
    (∀ st1, runPipe 8 progHazard ({} : PipeState) zeroMachine = some st1 → st1.rf 0 = 0) :=
  C5_reg0 8 progHazard zeroMachine ({} : PipeState) rfl

/-- C6: an out-of-bounds word index (alu_result // 4 outside
[0, dMemLen)) makes a MemRead return the defined value 0 with the
error reported and the machine (registers, memory, pc) untouched,
makes a MemWrite a no-op with the error reported and the machine
untouched, and makes the Writeback store path leave the data memory
unchanged. -/
theorem C6_oob (a : Int) (d : Decoded) (s : Signals) (md : Option Int) (st : Machine)
    (hoob : a.fdiv 4 < 0 ∨ (dMemLen : Int) ≤ a.fdiv 4) :
    (s.MemRead = 1 → Mem (some a) d s st = (some 0, st, true)) ∧
    (s.MemRead ≠ 1 → s.MemWrite = 1 → Mem (some a) d s st = (none, st, true)) ∧
    (Writeback d s (some a) md st).d_mem = st.d_mem := by
  have hc : ¬ (0 ≤ a.fdiv 4 ∧ a.fdiv 4 < (dMemLen : Int)) := by
    rcases hoob with hx | hx
    · intro hy; omega
    · intro hy; omega
  refine ⟨?_, ?_, ?_⟩
  · intro hr
    simp [Mem, hr, hc]
  · intro hr hw
    simp [Mem, hr, hw, hc]
  · unfold Writeback
    dsimp only
    repeat' split
    all_goals first
      | rfl
      | exact absurd (by assumption) hc

/-- C6 witness: address 128 maps to word index 32, one past the end of
the 32-entry data memory; the lw signal set reads a 0 without touching
the machine. -/
theorem C6_witness :
    Mem (some 128) lwDec (ControlUnit lwDec) presetMachine = (some 0, presetMachine, true) :=
  (C6_oob 128 lwDec (ControlUnit lwDec) none presetMachine (by decide)).1 rfl

/-- C7: sign extension is a round trip: for each immediate width used
by the decoder (12, 13 and 21) and every integer in the two's
complement range of that width, encoding to a bit string and applying
the decoder's sign extension recovers the integer exactly. -/
theorem C7_roundtrip (w : Nat) (v : Int) (hw : w = 12 ∨ w = 13 ∨ w = 21)
    (hlo : -(2 ^ (w - 1) : Int) ≤ v) (hhi : v ≤ 2 ^ (w - 1) - 1) :
    sign_extend (encodeBits w v) w = v := by
  rcases hw with h | h | h <;> subst h <;> exact sign_extend_encodeBits _ v hlo hhi

/-- C7 witness: width 12 recovers -5. -/
theorem C7_witness : sign_extend (encodeBits 12 (-5)) 12 = -5 :=
  C7_roundtrip 12 (-5) (Or.inl rfl) (by decide) (by decide)

/-- C8 counterexample: pc need not stay a multiple of 4: executing
jal x1 with decoded immediate 2 (machine word 0x002000EF) from pc = 0
leaves pc = 2. -/
theorem C8_counterexample :
    (stepSingle [w32 0x002000EF] zeroMachine).map Machine.pc = some 2 ∧
    ¬ ((2 : Int) % 4 = 0) :=
  ⟨rfl, by decide⟩

/-- C8 (amended): pc stays a multiple of 4 across every executed
supported instruction except that jal and jalr preserve the invariant
only when the jump target they compute is itself 4-aligned (the
decoder guarantees branch immediates are even, so both beq outcomes
are covered; jal and jalr immediates are only guaranteed even,
respectively nothing, by the encoding). -/
theorem C8_amended (program : List (List Bool)) (st st1 : Machine) (instr : List Bool) (d : Decoded)
    (h1 : pyGet program (st.pc.fdiv 4) = some instr)
    (h2 : Decode instr = some d)
    (hsupp : d.mnemonic ∈ (["lw", "sw", "add", "addi", "sub", "and", "andi", "or", "ori", "beq", "jal", "jalr"] : List String))
    (hpc : st.pc % 4 = 0)
    (hjal : d.mnemonic = "jal" → (st.pc + d.imm.getD 0) % 4 = 0)
    (hjalr : d.mnemonic = "jalr" → Int.land (st.rf (d.rs1.getD 0) + d.imm.getD 0) (-2) % 4 = 0)
    (h : stepSingle program st = some st1) :
    st1.pc % 4 = 0 := by
  simp only [List.mem_cons, List.not_mem_nil, or_false] at hsupp
  have plain : d.mnemonic ≠ "jal" → d.mnemonic ≠ "jalr" →
      (ControlUnit d).Branch = 0 → st1.pc % 4 = 0 := by
    intro hmj hmr hb
    have hp := stepSingle_pc_plain program st instr d h1 h2 hmj hmr hb
    rw [h] at hp
    simp only [Option.map_some', Option.some.injEq] at hp
    omega
  rcases hsupp with hm | hm | hm | hm | hm | hm | hm | hm | hm | hm | hm | hm
  · exact plain (by rw [hm]; decide) (by rw [hm]; decide) (by simp +decide [ControlUnit, hm])
  · exact plain (by rw [hm]; decide) (by rw [hm]; decide) (by simp +decide [ControlUnit, hm])
  · exact plain (by rw [hm]; decide) (by rw [hm]; decide) (by simp +decide [ControlUnit, hm])
  · exact plain (by rw [hm]; decide) (by rw [hm]; decide) (by simp +decide [ControlUnit, hm])
  · exact plain (by rw [hm]; decide) (by rw [hm]; decide) (by simp +decide [ControlUnit, hm])
  · exact plain (by rw [hm]; decide) (by rw [hm]; decide) (by simp +decide [ControlUnit, hm])
  · exact plain (by rw [hm]; decide) (by rw [hm]; decide) (by simp +decide [ControlUnit, hm])
  · exact plain (by rw [hm]; decide) (by rw [hm]; decide) (by simp +decide [ControlUnit, hm])
  · exact plain (by rw [hm]; decide) (by rw [hm]; decide) (by simp +decide [ControlUnit, hm])
  · obtain ⟨r1, r2, k, hr1, hr2, hk⟩ := decode_beq_imm instr d h2 hm
    have hb := stepSingle_pc_beq program st instr d r1 r2 (2 * k) h1 h2 hm hr1 hr2 hk
    rw [h] at hb
    simp only [Option.map_some', Option.some.injEq] at hb
    rw [hb]
    split
    · omega
    · omega
  · have hj := stepSingle_pc_jal program st instr d h1 h2 hm
    rw [h] at hj
    simp only [Option.map_some', Option.some.injEq] at hj
    rw [hj]
    exact hjal hm
  · have hj := stepSingle_pc_jalr program st instr d h1 h2 hm
    rw [h] at hj
    simp only [Option.map_some', Option.some.injEq] at hj
    rw [hj]
    exact hjalr hm

/-- C8 witness: one addi from the zero machine keeps pc 4-aligned. -/
theorem C8_witness :
    ∃ st1, stepSingle [w32 0x00500093] zeroMachine = some st1 ∧ st1.pc % 4 = 0 := by
  have hsome : (stepSingle [w32 0x00500093] zeroMachine).isSome = true := by decide
  have heq : stepSingle [w32 0x00500093] zeroMachine =
      some ((stepSingle [w32 0x00500093] zeroMachine).get hsome) := (Option.some_get hsome).symm
  exact ⟨_, heq, C8_amended [w32 0x00500093] zeroMachine _ (w32 0x00500093) addiDec
    (by decide) (by decide) (by decide) (by decide)
    (fun hx => absurd hx (by decide)) (fun hx => absurd hx (by decide)) heq⟩

/-- C9 counterexample: absent operand fields are zero-defaulted, not
treated as absent: slti decodes with no rs2 (and a default-zero signal
vector whose ALUSrc is 0), yet the Execute operand selection yields
operand2 = 0 - along with operand1 = rf[rs1] - rather than signaling
a missing field. -/
theorem C9_counterexample :
    Decode (w32 0x0030A113) = some sltiDec ∧
    executeOperands sltiDec (ControlUnit sltiDec) { zeroMachine with rf := fun _ => 5 } = (5, 0) :=
  ⟨by decide, rfl⟩

/-- C9 (amended): decoded field presence does match the format (with
the R-format immediate entry stored as an explicit None), but Execute
does not treat absent source fields as errors: with rs1 absent
operand1 falls back to 0, and with ALUSrc clear and rs2 absent
operand2 falls back to 0. -/
theorem C9_amended (mc : List Bool) (d : Decoded) (s : Signals) (st : Machine)
    (hdec : Decode mc = some d) :
    (d.type = .R → d.rs1.isSome ∧ d.rs2.isSome ∧ d.rd.isSome ∧ d.imm = none) ∧
    (d.type = .I → d.rs1.isSome ∧ d.rs2 = none ∧ d.rd.isSome ∧ d.imm.isSome) ∧
    (d.type = .S → d.rs1.isSome ∧ d.rs2.isSome ∧ d.rd = none ∧ d.imm.isSome) ∧
    (d.type = .SB → d.rs1.isSome ∧ d.rs2.isSome ∧ d.rd = none ∧ d.imm.isSome) ∧
    (d.type = .UJ → d.rs1 = none ∧ d.rs2 = none ∧ d.rd.isSome ∧ d.imm.isSome) ∧
    (d.rs2 = none → s.ALUSrc ≠ 1 → (executeOperands d s st).2 = 0) ∧
    (d.rs1 = none → (executeOperands d s st).1 = 0) := by
  have hops : (d.rs2 = none → s.ALUSrc ≠ 1 → (executeOperands d s st).2 = 0) ∧
      (d.rs1 = none → (executeOperands d s st).1 = 0) := by
    constructor
    · intro h2 ha
      simp [executeOperands, h2, ha]
    · intro h1
      simp [executeOperands, h1]
  unfold Decode at hdec
  cases hti : determineInstructionType mc with
  | none => rw [hti] at hdec; cases hdec
  | some t =>
    rw [hti] at hdec
    simp only [someBindEq] at hdec
    cases hmn : determineMnemonic mc t with
    | none => rw [hmn] at hdec; cases hdec
    | some m =>
      rw [hmn] at hdec
      simp only [someBindEq] at hdec
      cases t <;> dsimp only at hdec <;> rw [Option.some.injEq] at hdec <;> subst hdec <;>
        exact ⟨by intro hx; simp_all, by intro hx; simp_all, by intro hx; simp_all,
          by intro hx; simp_all, by intro hx; simp_all, hops.1, hops.2⟩

/-- C9 witness: the decoded slti has the I-format field shape. -/
theorem C9_witness :
    sltiDec.rs1.isSome ∧ sltiDec.rs2 = none ∧ sltiDec.rd.isSome ∧ sltiDec.imm.isSome :=
  (C9_amended (w32 0x0030A113) sltiDec (ControlUnit sltiDec) zeroMachine (by decide)).2.1 rfl

/-- C10: whenever the opcode maps to a recognized format and the funct
lookup yields a mnemonic, Decode succeeds with that mnemonic - even
for mnemonics outside the supported subset, which only later make the
control unit report an unsupported instruction while returning its
default signal vector. -/
theorem C10_decode_total (mc : List Bool) (t : InstrType) (m : String)
    (ht : determineInstructionType mc = some t)
    (hm : determineMnemonic mc t = some m) :
    ∃ d : Decoded, Decode mc = some d ∧ d.mnemonic = m ∧
      (m ∉ (["lw", "sw", "add", "sub", "and", "or", "addi", "andi", "ori", "beq", "jal", "jalr"] : List String) →
        (ControlUnit d).err = true) := by
  have hcu : ∀ d : Decoded, d.mnemonic = m →
      m ∉ (["lw", "sw", "add", "sub", "and", "or", "addi", "andi", "ori", "beq", "jal", "jalr"] : List String) →
      (ControlUnit d).err = true := by
    intro d hdm hns
    have e1 : m ≠ "lw" := fun hx => hns (by simp [hx])
    have e2 : m ≠ "sw" := fun hx => hns (by simp [hx])
    have e3 : m ≠ "add" := fun hx => hns (by simp [hx])
    have e4 : m ≠ "sub" := fun hx => hns (by simp [hx])
    have e5 : m ≠ "and" := fun hx => hns (by simp [hx])
    have e6 : m ≠ "or" := fun hx => hns (by simp [hx])
    have e7 : m ≠ "addi" := fun hx => hns (by simp [hx])
    have e8 : m ≠ "andi" := fun hx => hns (by simp [hx])
    have e9 : m ≠ "ori" := fun hx => hns (by simp [hx])
    have e10 : m ≠ "beq" := fun hx => hns (by simp [hx])
    have e11 : m ≠ "jal" := fun hx => hns (by simp [hx])
    have e12 : m ≠ "jalr" := fun hx => hns (by simp [hx])
    simp [ControlUnit, hdm, e1, e2, e3, e4, e5, e6, e7, e8, e9, e10, e11, e12]
  unfold Decode
  rw [ht]
  simp only [someBindEq]
  rw [hm]
  simp only [someBindEq]
  cases t <;> exact ⟨_, rfl, rfl, hcu _ rfl⟩

/-- C10 witness: the slli word decodes fine and only the control unit
reports it as unsupported. -/
theorem C10_witness :
    ∃ d : Decoded, Decode (w32 0x00109093) = some d ∧ d.mnemonic = "slli" ∧
      ("slli" ∉ (["lw", "sw", "add", "sub", "and", "or", "addi", "andi", "ori", "beq", "jal", "jalr"] : List String) →
        (ControlUnit d).err = true) :=
  C10_decode_total (w32 0x00109093) .I "slli" (by decide) (by decide)


end RV
